import Mathlib

/-
Shallow embedding of nagareproject/services-reloader.

The repository holds two copies of the reloader service:
  * the current one,    src/src/nagare/services/reloader.py
  * the historical one, src/nagare/services/reloader.py
Definitions below are translated from the current copy unless their name
carries a `Legacy`/`Old` suffix, in which case they come from the
historical copy.

Modelling conventions:
  * paths and byte strings are `List Char`; `os.path.sep` is the single
    character `/` (posix);
  * `st_mtime` values are integers (only `+ 1` and `>` are applied to them);
  * the filesystem seen by `os.path.isdir`, `os.path.isfile`, `os.stat` and
    `os.path.abspath` is an explicit `FS` record;
  * a predicate registered with a watch is a Lean function; the extra `**kw`
    arguments of the source are considered bound inside that closure;
  * `self._services(f, ...)` of the nagare dependency-injection container
    simply calls `f`, so it is modelled as plain application;
  * the defaultdict-of-dict `self._dirs[dirname][basename]` of the file
    observer is a finite map keyed by the pair (dirname, basename),
    modelled as an association list (`Table`).
-/

namespace Nagare

/-! ## Paths: `os.path` helpers (posix semantics) -/

def sep : Char := '/'

/-- Index one past the last separator of `p` (`p.rfind(sep) + 1`, 0 when
there is no separator). -/
def splitIdx (p : List Char) : Nat :=
  match p.reverse.findIdx? (fun c => c == sep) with
  | some j => p.length - j
  | none => 0

/-- `os.path.dirname`: the part of the path before the last separator, with
trailing separators stripped unless that head consists of separators only. -/
def dirnameOf (p : List Char) : List Char :=
  let head := p.take (splitIdx p)
  if head ≠ [] ∧ head.any (fun c => c ≠ sep) then
    (head.reverse.dropWhile (fun c => c == sep)).reverse
  else head

/-- `os.path.basename`: the part of the path after the last separator. -/
def basenameOf (p : List Char) : List Char := p.drop (splitIdx p)

/-! ## Filesystem events and filesystem state -/

/-- The watchdog event types the reloader inspects. -/
inductive EventType
  | created
  | modified
  | deleted
  | moved
deriving DecidableEq

/-- A watchdog filesystem event.  `dest_path` is `none` when the event class
has no `dest_path` attribute (every type but `moved`). -/
structure Event where
  src_path : List Char
  dest_path : Option (List Char)
  is_directory : Bool
  event_type : EventType
deriving DecidableEq

/-- The filesystem state consulted by the observers. `mtime p` is only
meaningful when `isfile p = true`. -/
structure FS where
  isdir : List Char → Bool
  isfile : List Char → Bool
  mtime : List Char → Int
  abspath : List Char → List Char

/-! ## `ObserverBase.execute_callback` and the default actions -/

/-- `event.event_type in ('created', 'modified', 'moved')`. -/
def isModEvent : EventType → Bool
  | .created | .modified | .moved => true
  | .deleted => false

/-- `Reloader.default_file_action(event, path, only_on_modified)` invokes
`self.reload` exactly under this condition (`self.reload is not None` is the
`reloadSet` flag; it is initialised to a lambda and replaced in `start`). -/
def default_file_action_fires (reloadSet : Bool) (t : EventType) (oom : Bool) : Bool :=
  reloadSet && (!oom || isModEvent t)

/-- What a dispatch produced: did `Reloader.default_file_action` fire the
registered reload callback, and was `reload_document` called instead. -/
structure Outcome where
  fired : Bool
  docReload : Bool
deriving DecidableEq

/-- A file-watch predicate: Python may return `None` (modelled `none`),
a truthy value (`some true`) or a falsy value (`some false`). -/
abbrev FilePred := Event → List Char → Option Bool

/-- A directory-watch predicate (receives the event, the watched root and the
relative path). -/
abbrev DirPred := Event → List Char → List Char → Option Bool

/-- `ObserverBase.execute_callback(action, event, filename)` as used by
`_FilesObserver`: run the predicate (or the built-in `lambda: True`),
then on a non-`None` truthy result call the default action with
`only_on_modified = not action`, and on a falsy result call
`reload_document`. -/
def fileExecuteCallback (reloadSet : Bool) (action : Option FilePred)
    (evt : Event) (filename : List Char) : Outcome :=
  let to_restart : Option Bool :=
    match action with
    | none => some true
    | some p => p evt filename
  match to_restart with
  | none => ⟨false, false⟩
  | some true => ⟨default_file_action_fires reloadSet evt.event_type action.isNone, false⟩
  | some false => ⟨false, true⟩

/-- `ObserverBase.execute_callback(action, event, dirname, path)` as used by
`_DirsObserver`.  The default action here is `Reloader.default_dir_action`,
which receives `only_on_modified = not action` but does not forward it to
`default_file_action`, so the latter runs with its default
`only_on_modified = False`. -/
def dirExecuteCallback (reloadSet : Bool) (action : Option DirPred)
    (evt : Event) (dirname path : List Char) : Outcome :=
  let to_restart : Option Bool :=
    match action with
    | none => some true
    | some p => p evt dirname path
  match to_restart with
  | none => ⟨false, false⟩
  | some true => ⟨default_file_action_fires reloadSet evt.event_type false, false⟩
  | some false => ⟨false, true⟩

/-! ## `_DirsObserver`: registration and dispatch -/

/-- One entry of `_DirsObserver._actions`: `(dirname, recursive, action, kw)`
with `kw` folded into the action closure. -/
structure DirRule where
  dirname : List Char
  recursive : Bool
  action : Option DirPred

/-- Stable insertion of a rule into a list sorted by decreasing root length:
the new rule goes before the first strictly shorter root. -/
def insertRule (r : DirRule) : List DirRule → List DirRule
  | [] => [r]
  | x :: xs =>
    if x.dirname.length ≤ r.dirname.length then r :: x :: xs
    else x :: insertRule r xs

/-- `self._actions.sort(key=lambda a: len(a[0]), reverse=True)`: a stable
sort by decreasing length of the root path (insertion sort, which is
stable, like Python timsort). -/
def sortRules : List DirRule → List DirRule
  | [] => []
  | x :: xs => insertRule x (sortRules xs)

/-- `_DirsObserver.schedule(dirname, action, recursive)`: reject roots that
are not existing directories, ignore duplicate roots, otherwise append the
rule and re-sort by decreasing root length.  Returns the Boolean result and
the new `_actions` list. -/
def scheduleDir (fs : FS) (st : List DirRule) (dirname : List Char)
    (recursive : Bool) (action : Option DirPred) : Bool × List DirRule :=
  let d := fs.abspath dirname
  if fs.isdir d = false then (false, st)
  else if (st.map (fun c => c.dirname)).contains d then (true, st)
  else (true, sortRules (st ++ [⟨d, recursive, action⟩]))

/-- `evt_dirname`: the source path itself for a directory event, else its
parent directory. -/
def evtDirname (evt : Event) : List Char :=
  if evt.is_directory then evt.src_path else dirnameOf evt.src_path

/-- The match test of `_DirsObserver.dispatch` for one rule:
`(recursive and evt_dirname2.startswith(dirname2)) or (evt_dirname == dirname)`
where both sides get a trailing separator appended. -/
def dirMatches (evt_dirname : List Char) (r : DirRule) : Bool :=
  (r.recursive && (r.dirname ++ [sep]).isPrefixOf (evt_dirname ++ [sep]))
    || evt_dirname == r.dirname

/-- `_DirsObserver.dispatch(event)`: walk `_actions` in order, fire
`execute_callback` for the first matching rule with the root and the path
relative to it, then `break`; produce nothing when no rule matches. -/
def dirsDispatch (reloadSet : Bool) (rules : List DirRule) (evt : Event) :
    Option (List Char × List Char × Outcome) :=
  (rules.find? (dirMatches (evtDirname evt))).map
    (fun r =>
      let path := evt.src_path.drop (r.dirname.length + 1)
      (r.dirname, path, dirExecuteCallback reloadSet r.action evt r.dirname path))

/-! ## `_FilesObserver`: registration and dispatch -/

/-- The per-file record `[mtime, action, kw]` (with `kw` folded into the
action closure). -/
structure FileEntry where
  mtime : Int
  action : Option FilePred

/-- `self._dirs`, flattened to a map keyed by (dirname, basename). -/
abbrev Table (α : Type) := List ((List Char × List Char) × α)

def tblGet {α : Type} (tbl : Table α) (d b : List Char) : Option α :=
  match tbl with
  | [] => none
  | ((d', b'), e) :: rest => if d' = d ∧ b' = b then some e else tblGet rest d b

/-- Dict assignment `self._dirs[dirname][basename] = e`. -/
def tblSet {α : Type} (tbl : Table α) (d b : List Char) (e : α) : Table α :=
  match tbl with
  | [] => [((d, b), e)]
  | ((d', b'), e') :: rest =>
    if d' = d ∧ b' = b then ((d', b'), e) :: rest
    else ((d', b'), e') :: tblSet rest d b e

/-- In-place mutation `file_infos[0] = mtime2` of an existing entry. -/
def tblUpdate {α : Type} (tbl : Table α) (d b : List Char) (g : α → α) : Table α :=
  match tbl with
  | [] => []
  | ((d', b'), e) :: rest =>
    if d' = d ∧ b' = b then ((d', b'), g e) :: rest
    else ((d', b'), e) :: tblUpdate rest d b g

/-- `_FilesObserver.schedule(filename, action)`: reject paths that are not
existing regular files, otherwise record the current mtime as the debounce
baseline. -/
def scheduleFile (fs : FS) (tbl : Table FileEntry) (filename : List Char)
    (action : Option FilePred) : Bool × Table FileEntry :=
  let f := fs.abspath filename
  if fs.isfile f = false then (false, tbl)
  else (true, tblSet tbl (dirnameOf f) (basenameOf f) ⟨fs.mtime f, action⟩)

/-- `getattr(event, 'dest_path', None) or event.src_path`: the destination
path when the attribute exists and is non-empty, else the source path. -/
def resolvedPath (evt : Event) : List Char :=
  match evt.dest_path with
  | some d => if d = [] then evt.src_path else d
  | none => evt.src_path

/-- `os.stat(filename).st_mtime if os.path.isfile(filename) else mtime1 + 1`. -/
def observedMtime (fs : FS) (filename : List Char) (stored : Int) : Int :=
  if fs.isfile filename then fs.mtime filename else stored + 1

/-- `_FilesObserver.dispatch(event)` (current copy): ignore directory events,
look the file up by the destination path of a move (falling back to the
source path), apply the mtime debounce unless `files_mtime_check` is off,
advance the stored mtime except on `deleted` events, and run
`execute_callback`.  Returns the new table and, when `execute_callback`
ran, its outcome. -/
def filesDispatch (files_mtime_check reloadSet : Bool) (fs : FS)
    (tbl : Table FileEntry) (evt : Event) : Table FileEntry × Option Outcome :=
  if evt.is_directory then (tbl, none)
  else
    let filename := resolvedPath evt
    let dirname := dirnameOf filename
    let bname := basenameOf filename
    match tblGet tbl dirname bname with
    | none => (tbl, none)
    | some fi =>
      let mtime2 := observedMtime fs filename fi.mtime
      if !files_mtime_check || mtime2 > fi.mtime then
        let tbl' :=
          if evt.event_type ≠ EventType.deleted then
            tblUpdate tbl dirname bname (fun e => { e with mtime := mtime2 })
          else tbl
        (tbl', some (fileExecuteCallback reloadSet fi.action evt filename))
      else (tbl, none)

/-- A predicate of the historical file observer returns a plain truthiness. -/
abbrev FilePredOld := Event → List Char → Bool

/-- The historical per-file record. -/
structure FileEntryOld where
  mtime : Int
  action : Option FilePredOld

/-- `FilesObserver.dispatch(event)` (historical copy): the file is always
looked up by `event.src_path`, the mtime debounce is unconditional, and the
default action fires when the predicate is absent or truthy.  The `Option
Bool` result is present when the debounce passed and records whether the
default action fired. -/
def filesDispatchOld (reloadSet : Bool) (fs : FS) (tbl : Table FileEntryOld)
    (evt : Event) : Table FileEntryOld × Option Bool :=
  if evt.is_directory then (tbl, none)
  else
    let filename := evt.src_path
    let dirname := dirnameOf filename
    let bname := basenameOf filename
    match tblGet tbl dirname bname with
    | none => (tbl, none)
    | some fi =>
      let mtime2 := observedMtime fs filename fi.mtime
      if mtime2 > fi.mtime then
        let tbl' :=
          if evt.event_type ≠ EventType.deleted then
            tblUpdate tbl dirname bname (fun e => { e with mtime := mtime2 })
          else tbl
        let fire := match fi.action with
          | none => true
          | some p => p evt filename
        (tbl', some (if fire then default_file_action_fires reloadSet evt.event_type fi.action.isNone else false))
      else (tbl, none)

/-! ## `Reloader.watch_dir` / `watch_file` -/

/-- Current `Reloader.watch_dir`: calls schedule and discards its Boolean
result; nothing is logged.  Returns the new rule list and the list of
warned-about directories (always empty here). -/
def watch_dir (fs : FS) (st : List DirRule) (dirname : List Char)
    (recursive : Bool) (action : Option DirPred) : List DirRule × List (List Char) :=
  ((scheduleDir fs st dirname recursive action).2, [])

/-- Historical `Reloader.watch_dir`: logs a warning naming the directory when
schedule returns `False`. -/
def watch_dir_legacy (fs : FS) (st : List DirRule) (dirname : List Char)
    (recursive : Bool) (action : Option DirPred) : List DirRule × List (List Char) :=
  let r := scheduleDir fs st dirname recursive action
  (r.2, if r.1 then [] else [dirname])

/-- Current `Reloader.watch_file`: calls schedule and discards its Boolean
result; nothing is logged. -/
def watch_file (fs : FS) (tbl : Table FileEntry) (filename : List Char)
    (action : Option FilePred) : Table FileEntry × List (List Char) :=
  ((scheduleFile fs tbl filename action).2, [])

/-- Historical `Reloader.watch_file`: logs a warning naming the file when
schedule returns `False`. -/
def watch_file_legacy (fs : FS) (tbl : Table FileEntry) (filename : List Char)
    (action : Option FilePred) : Table FileEntry × List (List Char) :=
  let r := scheduleFile fs tbl filename action
  (r.2, if r.1 then [] else [filename])

/-! ## `Reloader.monitor`: the supervisor loop -/

/-- The `while exit_code == 3` loop of `Reloader.monitor`, with an explicit
fuel bounding the number of observed iterations.  `exits n` is the exit code
observed for the n-th spawned child (a `KeyboardInterrupt` while waiting is
observed as exit code 1, exactly as in the source).  Returns the restart
counters passed to the spawned children through `environ['nagare.reload']`,
and `some code` when the loop terminated within the fuel (`none` means the
loop was still running after `fuel` spawns). -/
def monitorRun (exits : Nat → Int) : Nat → Nat → Int → List Nat × Option Int
  | 0, _, ec => if ec = 3 then ([], none) else ([], some ec)
  | fuel + 1, nb, ec =>
    if ec = 3 then
      let r := monitorRun exits fuel (nb + 1) (exits (nb + 1))
      ((nb + 1) :: r.1, r.2)
    else ([], some ec)

/-- `Reloader.monitor`: when `'nagare.reload' in os.environ` the process is
the supervised child, `start` runs and 0 is returned with no spawn;
otherwise the supervisor loop runs starting from `nb_reload = 0`,
`exit_code = 3`. -/
def monitor (activated : Bool) (exits : Nat → Int) (fuel : Nat) :
    List Nat × Option Int :=
  if activated then ([], some 0) else monitorRun exits fuel 0 3

/-! ## The livereload hub -/

/-- An outbound livereload message, structurally (the JSON encoding of
`json.dumps` is injective on these shapes and is modelled as the identity). -/
inductive OutMsg
  | helloResp (protocols : List String) (server_name : String)
  | reload (path : String)
  | alert (message : String)
deriving DecidableEq

/-- A parsed inbound message.  A `hello` lacking `extver` would raise
`KeyError` in the source and is not modelled. -/
inductive InMsg
  | hello (extver : Int)
  | info
  | other (cmd : String)

/-- The fixed handshake response of `Reloader.receive_livereload`. -/
def helloResponse : OutMsg :=
  .helloResp ["http://livereload.com/protocols/official-7"] "nagare-livereload"

/-- `Reloader.broadcast_livereload(command)`: serialize the command once and
send it to every websocket of the set, in iteration order.  There is no
try/except around `websocket.send`, so a raising send ends the loop and the
exception escapes: the Boolean result records whether that happened.
`fails ws` models whether the send to `ws` raises. -/
def broadcast_livereload (fails : Nat → Bool) (clients : List Nat)
    (command : OutMsg) : List (Nat × OutMsg) × Bool :=
  match clients with
  | [] => ([], false)
  | c :: rest =>
    if fails c then ([], true)
    else
      let r := broadcast_livereload fails rest command
      ((c, command) :: r.1, r.2)

/-- `Reloader.receive_livereload(websocket, message)`: on `hello`, send the
fixed response back and, when the client `extver` differs from the current
run version, call `reload_document` (a broadcast of `reload` with the empty
path to the whole client set); `info` and unknown commands do nothing. -/
def receive_livereload (version : Int) (clients : List Nat)
    (fails : Nat → Bool) (ws : Nat) (msg : InMsg) : List (Nat × OutMsg) × Bool :=
  match msg with
  | .hello extver =>
    if fails ws then ([], true)
    else if extver ≠ version then
      let r := broadcast_livereload fails clients (.reload "")
      ((ws, helloResponse) :: r.1, r.2)
    else ([(ws, helloResponse)], false)
  | .info => ([], false)
  | .other _ => ([], false)

/-- The hub state `close_livereload` acts on: the `self.websockets` set and,
per websocket, whether its `received_message`/`closed` attributes are still
present (they are set together by `connect_livereload` and deleted together
by `close_livereload`). -/
structure Hub where
  websockets : List Nat
  handlers : Nat → Bool

/-- `Reloader.close_livereload(websocket)`: `del websocket.received_message`
and `del websocket.closed` raise `AttributeError` when the attributes are
gone; `self.websockets.remove(websocket)` raises `KeyError` when the
websocket is not in the set. -/
def close_livereload (hub : Hub) (ws : Nat) : Except String Hub :=
  if hub.handlers ws = false then Except.error "AttributeError"
  else
    let handlers' := fun w => if w = ws then false else hub.handlers w
    if ws ∈ hub.websockets then
      Except.ok ⟨hub.websockets.erase ws, handlers'⟩
    else Except.error "KeyError"

def exceptOk {ε α : Type} : Except ε α → Bool
  | .ok _ => true
  | .error _ => false

/-! ## The response augmenter -/

/-- `bytes.partition(pat)`: split on the first occurrence of `pat`,
returning `(before, pat, after)`, or `(s, b, b)` with empty tail parts when
`pat` does not occur. -/
def partitionAt (pat : List Char) : List Char → List Char × List Char × List Char
  | [] => ([], [], [])
  | c :: rest =>
    if pat.isPrefixOf (c :: rest) then ([], pat, (c :: rest).drop pat.length)
    else
      let r := partitionAt pat rest
      (c :: r.1, r.2.1, r.2.2)

/-- Whether `pat` occurs as a contiguous substring of `s`. -/
def containsSub (pat : List Char) : List Char → Bool
  | [] => pat.isPrefixOf []
  | c :: rest => pat.isPrefixOf (c :: rest) || containsSub pat rest

def headTag : List Char := ['<', '/', 'h', 'e', 'a', 'd', '>']

def bodyTag : List Char := ['<', '/', 'b', 'o', 'd', 'y', '>']

/-- `Reloader.insert_reload_script(body, reload_script)`: insert the script
immediately before the first `</head>`, falling back to the first `</body>`,
and leave the body alone when neither tag occurs. -/
def insert_reload_script (body reload_script : List Char) : List Char :=
  let p1 := partitionAt headTag body
  let p := if p1.2.1 = [] then partitionAt bodyTag body else p1
  if p.2.1 ≠ [] then p.1 ++ reload_script ++ p.2.1 ++ p.2.2 else body

/-- `str.startswith`. -/
def strStartsWith (s pre : String) : Bool := pre.data.isPrefixOf s.data

/-- `webob.multidict.MultiDict.get`: the value most recently added under the
key. -/
def mdGet (k : String) (hs : List (String × String)) : Option String :=
  (hs.reverse.find? (fun p => p.1 == k)).map (fun p => p.2)

/-- `MultiDict.__setitem__`: drop every pair under the key, then append. -/
def mdSet (k v : String) (hs : List (String × String)) : List (String × String) :=
  (hs.filter (fun p => p.1 ≠ k)) ++ [(k, v)]

/-- `Reloader.generate_response(start_response, status, headers, body)`: for
a `text/html` content type, splice the reload script into the body and
recompute `Content-Length`; otherwise pass status, headers and body through
untouched. -/
def generate_response (reload_script : List Char) (status : String)
    (headers : List (String × String)) (body : List Char) :
    String × List (String × String) × List Char :=
  match mdGet "Content-Type" headers with
  | some ct =>
    if (!(ct == "") && strStartsWith ct "text/html") then
      let body' := insert_reload_script body reload_script
      (status, mdSet "Content-Length" (toString body'.length) headers, body')
    else (status, headers, body)
  | none => (status, headers, body)


/-! ## Derived definitions and concrete instances used by the theorems -/

/-- The sort invariant of `_DirsObserver._actions`: roots in non-increasing
length order (strictly decreasing across roots of different length). -/
abbrev rulesSorted (l : List DirRule) : Prop :=
  l.Pairwise (fun a b => b.dirname.length ≤ a.dirname.length)

def r1C : DirRule := ⟨['/', 'a'], true, none⟩

def r2C : DirRule := ⟨['/', 'a', '/', 'b'], false, none⟩

def rulesC : List DirRule := [r2C, r1C]

def evtC : Event := ⟨['/', 'a', '/', 'b', '/', 'f'], none, false, EventType.modified⟩

def noFail : Nat → Bool := fun _ => false

def exitsW : Nat → Int := fun n => if n = 1 then 0 else 3

def failsOne : Nat → Bool := fun c => c == 1

def failsTwo : Nat → Bool := fun c => c == 2

def closeTwice (hub : Hub) (ws : Nat) : Except String Hub :=
  (close_livereload hub ws).bind (fun h => close_livereload h ws)

def hubC7 : Hub := ⟨[1], fun w => w == 1⟩

def hubW7 : Hub := ⟨[5], fun _ => false⟩

def dirC8 : List Char := ['/', 'x']

def fW : List Char := ['/', 'a', '/', 'f']

def fsW : FS := ⟨fun _ => false, fun p => p == fW, fun _ => 5, id⟩

def eW : FileEntry := ⟨0, none⟩

def tblW : Table FileEntry := [((['/', 'a'], ['f']), eW)]

def evtW : Event := ⟨fW, none, false, EventType.modified⟩

def predTrue : FilePred := fun _ _ => some true

def fsNone : FS := ⟨fun _ => false, fun _ => false, fun _ => 0, id⟩

def tblC3 : Table FileEntry := [((['/', 'a'], ['f']), ⟨0, some predTrue⟩)]

def evtC3 : Event := ⟨['/', 'a', '/', 'f'], none, false, EventType.deleted⟩

def tblW3 : Table FileEntry := [((['/', 'a'], ['g']), ⟨0, none⟩)]

def evtW3 : Event := ⟨['/', 'a', '/', 'g'], none, false, EventType.deleted⟩

def scriptW : List Char := ['S']

def headersW : List (String × String) := [("Content-Type", "text/html")]

def bodyW : List Char := ['a'] ++ headTag ++ ['b']

def evtM10 : Event := ⟨['/', 'a', '/', 'g'], some fW, false, EventType.moved⟩

/-! ## Helper lemmas -/

theorem tblGet_tblUpdate {α : Type} (tbl : Table α) (d b : List Char) (g : α → α) :
    tblGet (tblUpdate tbl d b g) d b = (tblGet tbl d b).map g := by
  induction tbl with
  | nil => rfl
  | cons hd rest ih =>
    obtain ⟨⟨d', b'⟩, e⟩ := hd
    by_cases h : d' = d ∧ b' = b
    · simp [tblGet, tblUpdate, h]
    · simp [tblGet, tblUpdate, h, ih]

theorem mem_insertRule {r x : DirRule} :
    ∀ {l : List DirRule}, x ∈ insertRule r l → x = r ∨ x ∈ l := by
  intro l
  induction l with
  | nil => intro h; simp [insertRule] at h; exact Or.inl h
  | cons y ys ih =>
    intro h
    simp only [insertRule] at h
    split at h
    · rcases List.mem_cons.mp h with h | h
      · exact Or.inl h
      · exact Or.inr h
    · rcases List.mem_cons.mp h with h | h
      · exact Or.inr (h ▸ List.mem_cons_self y ys)
      · rcases ih h with h | h
        · exact Or.inl h
        · exact Or.inr (List.mem_cons_of_mem y h)

theorem insertRule_sorted {r : DirRule} :
    ∀ {l : List DirRule}, rulesSorted l → rulesSorted (insertRule r l) := by
  intro l
  induction l with
  | nil => intro _; simp [insertRule]
  | cons y ys ih =>
    intro h
    obtain ⟨hy, hys⟩ := List.pairwise_cons.mp h
    simp only [insertRule]
    split
    · rename_i hle
      refine List.pairwise_cons.mpr ⟨?_, List.pairwise_cons.mpr ⟨hy, hys⟩⟩
      intro a ha
      rcases List.mem_cons.mp ha with rfl | ha
      · exact hle
      · exact le_trans (hy a ha) hle
    · rename_i hgt
      push_neg at hgt
      refine List.pairwise_cons.mpr ⟨?_, ih hys⟩
      intro a ha
      rcases mem_insertRule ha with rfl | ha
      · exact le_of_lt hgt
      · exact hy a ha

theorem sortRules_sorted : ∀ (l : List DirRule), rulesSorted (sortRules l)
  | [] => List.Pairwise.nil
  | _ :: xs => insertRule_sorted (sortRules_sorted xs)

theorem find?_split {α : Type} {p : α → Bool} :
    ∀ {l : List α} {a : α}, l.find? p = some a →
      ∃ s t, l = s ++ a :: t ∧ p a = true ∧ ∀ b ∈ s, p b = false := by
  intro l
  induction l with
  | nil => intro a h; simp at h
  | cons x xs ih =>
    intro a h
    by_cases hx : p x = true
    · rw [List.find?_cons_of_pos _ hx] at h
      obtain rfl : x = a := by injection h
      exact ⟨[], xs, rfl, hx, by simp⟩
    · rw [List.find?_cons_of_neg _ (by simpa using hx)] at h
      obtain ⟨s, t, rfl, hpa, hs⟩ := ih h
      refine ⟨x :: s, t, rfl, hpa, ?_⟩
      intro b hb
      rcases List.mem_cons.mp hb with rfl | hb
      · simpa using hx
      · exact hs b hb

/-! ## Claim theorems -/

/-- Claim C1: directory registration keeps the rule list sorted by
(non-increasing, hence strictly decreasing across distinct lengths) root
length; dispatch fires only the first matching rule of that list (a
recursive rule matches when the event directory plus a separator starts
with the root plus a separator, any rule matches when the event directory
equals the root); therefore among two registered roots where one is a
proper prefix of the other, a matching event is routed to a rule at least
as deep as the deeper root, never to the shallower one, regardless of
registration order, and an event matching no rule triggers nothing. -/
theorem C1_dir_dispatch_precedence :
    (∀ (fs : FS) (st : List DirRule) (d : List Char) (rec : Bool) (act : Option DirPred),
       rulesSorted st → rulesSorted (scheduleDir fs st d rec act).2) ∧
    (∀ (rs : Bool) (rules : List DirRule) (evt : Event),
       (∀ r ∈ rules, dirMatches (evtDirname evt) r = false) →
       dirsDispatch rs rules evt = none) ∧
    (∀ (rs : Bool) (rules : List DirRule) (evt : Event) (root path : List Char) (o : Outcome),
       dirsDispatch rs rules evt = some (root, path, o) →
       ∃ s t r, rules = s ++ r :: t ∧ r.dirname = root ∧
         dirMatches (evtDirname evt) r = true ∧
         (∀ r' ∈ s, dirMatches (evtDirname evt) r' = false) ∧
         path = evt.src_path.drop (root.length + 1) ∧
         o = dirExecuteCallback rs r.action evt root path) ∧
    (∀ (rs : Bool) (rules : List DirRule) (evt : Event) (r1 r2 : DirRule),
       rulesSorted rules → r1 ∈ rules → r2 ∈ rules →
       r1.dirname <+: r2.dirname → r1.dirname ≠ r2.dirname →
       dirMatches (evtDirname evt) r2 = true →
       ∃ root path o, dirsDispatch rs rules evt = some (root, path, o) ∧
         r2.dirname.length ≤ root.length ∧ root ≠ r1.dirname) := by
  refine ⟨?_, ?_, ?_, ?_⟩
  · intro fs st d rec act h
    simp only [scheduleDir]
    split_ifs
    · exact h
    · exact h
    · exact sortRules_sorted _
  · intro rs rules evt h
    unfold dirsDispatch
    rw [List.find?_eq_none.mpr (fun x hx => by simp [h x hx])]
    rfl
  · intro rs rules evt root path o h
    unfold dirsDispatch at h
    rcases Option.map_eq_some'.mp h with ⟨r, hf, hr⟩
    dsimp only at hr
    obtain ⟨s, t, rfl, hpr, hs⟩ := find?_split hf
    cases hr
    exact ⟨s, t, r, rfl, rfl, hpr, hs, rfl, rfl⟩
  · intro rs rules evt r1 r2 hsr h1 h2 hp hne hm
    cases hf : rules.find? (dirMatches (evtDirname evt)) with
    | none => exact absurd hm (by simpa using List.find?_eq_none.mp hf r2 h2)
    | some r =>
      obtain ⟨s, t, hrules, hpr, hsnone⟩ := find?_split hf
      have hr2 : r2.dirname.length ≤ r.dirname.length := by
        subst hrules
        rcases List.mem_append.mp h2 with h | h
        · exact absurd hm (by simp [hsnone r2 h])
        · rcases List.mem_cons.mp h with rfl | h
          · exact le_refl _
          · have hpost := (List.pairwise_append.mp hsr).2.1
            exact (List.pairwise_cons.mp hpost).1 r2 h
      have hlen1 : r1.dirname.length < r2.dirname.length :=
        lt_of_le_of_ne hp.length_le (fun hl => hne (hp.eq_of_length hl))
      refine ⟨r.dirname, evt.src_path.drop (r.dirname.length + 1),
        dirExecuteCallback rs r.action evt r.dirname
          (evt.src_path.drop (r.dirname.length + 1)), ?_, hr2, ?_⟩
      · unfold dirsDispatch
        rw [hf]
        rfl
      · intro heq
        have hll := congrArg List.length heq
        omega

/-- Witness for C1: with the deeper root `/a/b` (non-recursive) and the
shallower root `/a` (recursive) both registered, an event on `/a/b/f` is
dispatched, and not to the shallower root. -/
theorem C1_dir_dispatch_precedence_witness :
    rulesSorted rulesC ∧ (dirsDispatch true rulesC evtC).isSome = true ∧
    (dirsDispatch true rulesC evtC).map Prod.fst ≠ some r1C.dirname := by
  have hmem1 : r1C ∈ rulesC := List.mem_cons_of_mem _ (List.mem_cons_self _ _)
  have hmem2 : r2C ∈ rulesC := List.mem_cons_self _ _
  obtain ⟨root, path, o, hd, hlen, hne⟩ :=
    C1_dir_dispatch_precedence.2.2.2 true rulesC evtC r1C r2C
      (by decide) hmem1 hmem2 ⟨['/', 'b'], by decide⟩ (by decide) (by decide)
  refine ⟨by decide, ?_, ?_⟩
  · rw [hd]; rfl
  · rw [hd]
    intro hcontra
    simp only [Option.map_some'] at hcontra
    exact hne (Option.some.inj hcontra)

theorem filesDispatch_gate_closed (rs : Bool) (fs : FS) (tbl : Table FileEntry)
    (evt : Event) (e : FileEntry) (f : List Char)
    (hdir : evt.is_directory = false) (hres : resolvedPath evt = f)
    (hget : tblGet tbl (dirnameOf f) (basenameOf f) = some e)
    (hnlt : ¬ e.mtime < observedMtime fs f e.mtime) :
    filesDispatch true rs fs tbl evt = (tbl, none) := by
  unfold filesDispatch
  rw [hdir, hres]
  simp only [Bool.false_eq_true, if_false, hget, Bool.not_true, Bool.false_or,
    gt_iff_lt, decide_eq_true_eq]
  simp [hnlt]

/-- Claim C2: with `files_mtime_check` enabled, an event for a watched file
is treated as a genuine change (reaching `execute_callback`) exactly when
the observed mtime — the on-disk mtime when the file can be statted, the
stored mtime plus one otherwise, as for a deletion — is strictly greater
than the stored mtime; on firing, the stored mtime advances to the observed
value except for `deleted` events; hence a second event for the same file
with the on-disk mtime unchanged fires nothing and the default action fires
at most once per distinct on-disk mtime value. -/
theorem C2_file_mtime_debounce
    (rs : Bool) (fs : FS) (tbl : Table FileEntry) (evt evt2 : Event)
    (e : FileEntry) (f : List Char)
    (hdir : evt.is_directory = false)
    (hres : resolvedPath evt = f)
    (hget : tblGet tbl (dirnameOf f) (basenameOf f) = some e) :
    ((filesDispatch true rs fs tbl evt).2.isSome = true ↔
        e.mtime < observedMtime fs f e.mtime) ∧
    (fs.isfile f = false → observedMtime fs f e.mtime = e.mtime + 1) ∧
    ((filesDispatch true rs fs tbl evt).2.isSome = true →
        (filesDispatch true rs fs tbl evt).2 =
          some (fileExecuteCallback rs e.action evt f)) ∧
    ((filesDispatch true rs fs tbl evt).2.isSome = true →
      evt.event_type ≠ EventType.deleted →
        tblGet (filesDispatch true rs fs tbl evt).1 (dirnameOf f) (basenameOf f) =
          some { e with mtime := observedMtime fs f e.mtime }) ∧
    (evt.event_type = EventType.deleted ∨ (filesDispatch true rs fs tbl evt).2 = none →
        (filesDispatch true rs fs tbl evt).1 = tbl) ∧
    (evt2.is_directory = false → resolvedPath evt2 = f →
      fs.isfile f = true → evt.event_type ≠ EventType.deleted →
      (filesDispatch true rs fs tbl evt).2.isSome = true →
        filesDispatch true rs fs (filesDispatch true rs fs tbl evt).1 evt2 =
          ((filesDispatch true rs fs tbl evt).1, none)) := by
  have key : filesDispatch true rs fs tbl evt =
      if e.mtime < observedMtime fs f e.mtime then
        (if evt.event_type ≠ EventType.deleted then
           tblUpdate tbl (dirnameOf f) (basenameOf f)
             (fun x => { x with mtime := observedMtime fs f e.mtime })
         else tbl,
         some (fileExecuteCallback rs e.action evt f))
      else (tbl, none) := by
    unfold filesDispatch
    rw [hdir, hres]
    simp only [Bool.false_eq_true, if_false, hget, Bool.not_true, Bool.false_or,
      gt_iff_lt, decide_eq_true_eq]
  constructor
  · rw [key]
    by_cases hlt : e.mtime < observedMtime fs f e.mtime
    · simp [hlt]
    · simp [hlt]
  constructor
  · intro hnf
    unfold observedMtime
    rw [hnf]
    rfl
  constructor
  · intro hsome
    rw [key] at hsome ⊢
    by_cases hlt : e.mtime < observedMtime fs f e.mtime
    · simp [hlt]
    · simp [hlt] at hsome
  constructor
  · intro hsome hnd
    rw [key] at hsome ⊢
    by_cases hlt : e.mtime < observedMtime fs f e.mtime
    · simp only [if_pos hlt, if_pos hnd]
      rw [tblGet_tblUpdate, hget]
      rfl
    · simp [hlt] at hsome
  constructor
  · intro hcase
    rw [key]
    by_cases hlt : e.mtime < observedMtime fs f e.mtime
    · rcases hcase with hdel | hnone
      · simp [hlt, hdel]
      · rw [key] at hnone
        simp [hlt] at hnone
    · simp [hlt]
  · intro hdir2 hres2 hfile hnd hsome
    rw [key] at hsome
    by_cases hlt : e.mtime < observedMtime fs f e.mtime
    · have htbl1 : (filesDispatch true rs fs tbl evt).1 =
          tblUpdate tbl (dirnameOf f) (basenameOf f)
            (fun x => { x with mtime := observedMtime fs f e.mtime }) := by
        rw [key]
        simp [hlt, hnd]
      have hget1 : tblGet (filesDispatch true rs fs tbl evt).1
          (dirnameOf f) (basenameOf f) = some { e with mtime := observedMtime fs f e.mtime } := by
        rw [htbl1, tblGet_tblUpdate, hget]
        rfl
      exact filesDispatch_gate_closed rs fs (filesDispatch true rs fs tbl evt).1 evt2
        { e with mtime := observedMtime fs f e.mtime } f hdir2 hres2 hget1
        (by simp [observedMtime, hfile])
    · simp [hlt] at hsome

/-- Witness for C2: a modified event for a watched file advances the stored
mtime, and a second event with the on-disk mtime unchanged fires nothing. -/
theorem C2_file_mtime_debounce_witness :
    filesDispatch true true fsW (filesDispatch true true fsW tblW evtW).1 evtW =
      ((filesDispatch true true fsW tblW evtW).1, none) :=
  (C2_file_mtime_debounce true fsW tblW evtW evtW eW fW rfl rfl rfl).2.2.2.2.2
    rfl rfl (by decide) (by decide) rfl

/-- Claim C3 (amended): with `files_mtime_check` disabled every event for a
watched file reaches `execute_callback`; when no predicate is registered the
default action fires exactly for `created`, `modified` and `moved` events
and never for `deleted`; when a predicate is registered the default action
fires exactly when the predicate returns a truthy value, regardless of the
event type — including `deleted`. -/
theorem C3_no_mtime_check_fires
    (fs : FS) (tbl : Table FileEntry) (evt : Event) (e : FileEntry) (f : List Char)
    (hdir : evt.is_directory = false)
    (hres : resolvedPath evt = f)
    (hget : tblGet tbl (dirnameOf f) (basenameOf f) = some e) :
    ((filesDispatch false true fs tbl evt).2 =
        some (fileExecuteCallback true e.action evt f)) ∧
    (e.action = none →
        (filesDispatch false true fs tbl evt).2 =
          some ⟨isModEvent evt.event_type, false⟩) ∧
    (∀ p, e.action = some p →
        (filesDispatch false true fs tbl evt).2 =
          some (match p evt f with
                | none => ⟨false, false⟩
                | some true => ⟨true, false⟩
                | some false => ⟨false, true⟩)) := by
  have key : (filesDispatch false true fs tbl evt).2 =
      some (fileExecuteCallback true e.action evt f) := by
    unfold filesDispatch
    rw [hdir, hres]
    simp only [Bool.false_eq_true, if_false, hget, Bool.not_false, Bool.true_or, if_true]
  refine ⟨key, ?_, ?_⟩
  · intro hact
    rw [key]
    unfold fileExecuteCallback
    rw [hact]
    simp [default_file_action_fires]
  · intro p hact
    rw [key]
    unfold fileExecuteCallback
    rw [hact]
    cases hp : p evt f with
    | none => simp [hp]
    | some b =>
      cases b
      · simp [hp]
      · simp [hp, default_file_action_fires]

/-- Counterexample to C3 as stated: with `files_mtime_check` disabled and a
predicate registered (returning a truthy value), a `deleted` event for the
watched file does fire the default action. -/
theorem C3_counterexample :
    evtC3.event_type = EventType.deleted ∧
    (filesDispatch false true fsNone tblC3 evtC3).2.map Outcome.fired = some true :=
  ⟨rfl, rfl⟩

/-- Witness for C3 (amended): without a predicate, a `deleted` event fires
nothing even though it reaches `execute_callback`. -/
theorem C3_no_mtime_check_fires_witness :
    (filesDispatch false true fsNone tblW3 evtW3).2 = some ⟨false, false⟩ := by
  have h := (C3_no_mtime_check_fires fsNone tblW3 evtW3 ⟨0, none⟩
    (['/', 'a', '/', 'g']) rfl rfl rfl).2.1 rfl
  simpa [isModEvent] using h

theorem monitorRun_succ (exits : Nat → Int) (m nb : Nat) :
    monitorRun exits (m + 1) nb 3 =
      ((nb + 1) :: (monitorRun exits m (nb + 1) (exits (nb + 1))).1,
       (monitorRun exits m (nb + 1) (exits (nb + 1))).2) := by
  simp [monitorRun]

theorem monitorRun_stop (exits : Nat → Int) (fuel nb : Nat) (ec : Int) (h : ec ≠ 3) :
    monitorRun exits fuel nb ec = ([], some ec) := by
  cases fuel <;> simp [monitorRun, h]

theorem monitorRun_all_three (exits : Nat → Int) :
    ∀ (fuel nb : Nat), (∀ n, nb + 1 ≤ n → n ≤ nb + fuel → exits n = 3) →
      monitorRun exits fuel nb 3 = (List.range' (nb + 1) fuel, none) := by
  intro fuel
  induction fuel with
  | zero => intro nb _; simp [monitorRun, List.range']
  | succ m ih =>
    intro nb h
    rw [monitorRun_succ, h (nb + 1) (by omega) (by omega),
      ih (nb + 1) (fun n h1 h2 => h n (by omega) (by omega)), List.range'_succ]

theorem monitorRun_first_stop (exits : Nat → Int) :
    ∀ (fuel nb k : Nat), nb < k → k ≤ nb + fuel →
      (∀ i, nb + 1 ≤ i → i < k → exits i = 3) → exits k ≠ 3 →
      monitorRun exits fuel nb 3 = (List.range' (nb + 1) (k - nb), some (exits k)) := by
  intro fuel
  induction fuel with
  | zero => intro nb k h1 h2 _ _; omega
  | succ m ih =>
    intro nb k h1 h2 h3 h4
    rw [monitorRun_succ]
    by_cases hk : k = nb + 1
    · subst hk
      rw [monitorRun_stop exits m (nb + 1) _ h4]
      simp [List.range']
    · have hnb1 : nb + 1 < k := by omega
      rw [h3 (nb + 1) (by omega) hnb1,
        ih (nb + 1) k hnb1 (by omega) (fun i hi1 hi2 => h3 i (by omega) hi2) h4]
      have hsub : k - nb = (k - (nb + 1)) + 1 := by omega
      rw [hsub, List.range'_succ]

/-- Claim C4: with the environment marker absent, if every spawned child
exits with the restart sentinel 3 the supervisor loop never returns (for
every fuel it is still looping) and the successive spawns carry the
strictly increasing restart counters 1, 2, 3, …; the first exit code other
than 3 ends the loop after exactly that many spawns and becomes the result
of `monitor`; in particular a first child exiting 0 makes `monitor` return
0 after exactly one spawn. -/
theorem C4_monitor_loop :
    (∀ (exits : Nat → Int) (fuel : Nat), (∀ n, 1 ≤ n → exits n = 3) →
       monitor false exits fuel = (List.range' 1 fuel, none)) ∧
    (∀ (exits : Nat → Int) (fuel k : Nat), 1 ≤ k → k ≤ fuel →
       (∀ i, 1 ≤ i → i < k → exits i = 3) → exits k ≠ 3 →
       monitor false exits fuel = (List.range' 1 k, some (exits k))) ∧
    (∀ (exits : Nat → Int) (fuel : Nat), exits 1 = 0 → 1 ≤ fuel →
       monitor false exits fuel = ([1], some 0)) := by
  have hmain : ∀ (exits : Nat → Int) (fuel k : Nat), 1 ≤ k → k ≤ fuel →
      (∀ i, 1 ≤ i → i < k → exits i = 3) → exits k ≠ 3 →
      monitor false exits fuel = (List.range' 1 k, some (exits k)) := by
    intro exits fuel k h1 h2 h3 h4
    unfold monitor
    rw [if_neg (by simp)]
    have h := monitorRun_first_stop exits fuel 0 k h1 (by omega) (fun i a b => h3 i a b) h4
    simpa using h
  refine ⟨?_, hmain, ?_⟩
  · intro exits fuel h
    unfold monitor
    rw [if_neg (by simp)]
    have hr := monitorRun_all_three exits fuel 0 (fun n a _ => h n a)
    simpa using hr
  · intro exits fuel h0 hf
    have h := hmain exits fuel 1 le_rfl hf (fun i a b => by omega) (by rw [h0]; decide)
    rw [h0] at h
    simpa [List.range'] using h

/-- Witness for C4: a child that always exits 3 keeps the loop running with
counters 1, 2, 3, 4; a first child exiting 0 returns 0 after one spawn. -/
theorem C4_monitor_loop_witness :
    monitor false (fun _ => 3) 4 = ([1, 2, 3, 4], none) ∧
    monitor false exitsW 5 = ([1], some 0) := by
  constructor
  · have h := C4_monitor_loop.1 (fun _ => 3) 4 (fun n _ => rfl)
    rw [h]
    rfl
  · exact C4_monitor_loop.2.2 exitsW 5 rfl (by omega)

theorem broadcast_no_failure (clients : List Nat) (cmd : OutMsg) :
    broadcast_livereload noFail clients cmd =
      (clients.map (fun c => (c, cmd)), false) := by
  induction clients with
  | nil => rfl
  | cons c rest ih => simp [broadcast_livereload, noFail, ih]

/-- Claim C5: on a `hello` message from a connected client, the server
first sends back the hello response whose protocols list is exactly
`["http://livereload.com/protocols/official-7"]` and whose serverName is
exactly `"nagare-livereload"`, and then broadcasts a `reload` command with
the empty path — which reaches that same client — if and only if the
client extver differs from the current run version. -/
theorem C5_hello_handshake (version : Int) (clients : List Nat) (ws : Nat)
    (extver : Int) (hws : ws ∈ clients) :
    (receive_livereload version clients noFail ws (.hello extver)).2 = false ∧
    (receive_livereload version clients noFail ws (.hello extver)).1.head? =
      some (ws, OutMsg.helloResp ["http://livereload.com/protocols/official-7"]
        "nagare-livereload") ∧
    (extver ≠ version →
      (receive_livereload version clients noFail ws (.hello extver)).1 =
        (ws, helloResponse) :: clients.map (fun c => (c, OutMsg.reload "")) ∧
      (ws, OutMsg.reload "") ∈
        (receive_livereload version clients noFail ws (.hello extver)).1) ∧
    (extver = version →
      (receive_livereload version clients noFail ws (.hello extver)).1 =
        [(ws, helloResponse)]) := by
  have hnf := broadcast_no_failure clients (OutMsg.reload "")
  by_cases hv : extver = version
  · refine ⟨?_, ?_, fun h => absurd hv h, fun _ => ?_⟩
    · simp [receive_livereload, noFail, hv]
    · simp [receive_livereload, noFail, hv, helloResponse]
    · simp [receive_livereload, noFail, hv]
  · have hr : (receive_livereload version clients noFail ws (.hello extver)).1 =
        (ws, helloResponse) :: clients.map (fun c => (c, OutMsg.reload "")) := by
      simp [receive_livereload, noFail, hv, hnf]
    refine ⟨?_, ?_, fun _ => ⟨hr, ?_⟩, fun h => absurd h hv⟩
    · simp [receive_livereload, noFail, hv, hnf]
    · rw [hr]
      simp [helloResponse]
    · rw [hr]
      exact List.mem_cons_of_mem _ (List.mem_map.mpr ⟨ws, hws, rfl⟩)

/-- Witness for C5: extver 5 against run version 7 with connected clients
{1, 2}: the hello response comes first, then the reload broadcast reaches
both clients, including the sender. -/
theorem C5_hello_handshake_witness :
    (receive_livereload 7 [1, 2] noFail 2 (.hello 5)).1 =
      (2, helloResponse) :: [(1, OutMsg.reload ""), (2, OutMsg.reload "")] := by
  have h := ((C5_hello_handshake 7 [1, 2] 2 5 (by decide)).2.2.1 (by decide)).1
  exact h

/-- Claim C6 (amended): the command is serialized once and every message a
client receives is that same serialization; with no failing send every
currently open connection receives it exactly once, in iteration order; but
a send failure aborts the loop: the clients iterated after the failing one
receive nothing and the exception escapes to the caller of the broadcast. -/
theorem C6_broadcast_behaviour :
    (∀ (clients : List Nat) (cmd : OutMsg),
       broadcast_livereload noFail clients cmd =
         (clients.map (fun c => (c, cmd)), false)) ∧
    (∀ (fails : Nat → Bool) (clients : List Nat) (cmd : OutMsg) (x : Nat × OutMsg),
       x ∈ (broadcast_livereload fails clients cmd).1 → x.2 = cmd) ∧
    (∀ (fails : Nat → Bool) (s t : List Nat) (c : Nat) (cmd : OutMsg),
       (∀ b ∈ s, fails b = false) → fails c = true →
       broadcast_livereload fails (s ++ c :: t) cmd =
         (s.map (fun b => (b, cmd)), true)) := by
  refine ⟨broadcast_no_failure, ?_, ?_⟩
  · intro fails clients cmd x
    induction clients with
    | nil => intro h; simp [broadcast_livereload] at h
    | cons c rest ih =>
      intro h
      simp only [broadcast_livereload] at h
      split at h
      · simp at h
      · rcases List.mem_cons.mp h with rfl | h
        · rfl
        · exact ih h
  · intro fails s t c cmd hs hc
    induction s with
    | nil => simp [broadcast_livereload, hc]
    | cons b s' ih =>
      have hb : fails b = false := hs b (List.mem_cons_self _ _)
      have ih' := ih (fun x hx => hs x (List.mem_cons_of_mem _ hx))
      simp [broadcast_livereload, hb, ih']

/-- Counterexample to C6 as stated: with open clients {1, 2} and the send
to client 1 raising, client 2 receives nothing — the failure aborts
delivery to the remaining connections and the exception escapes. -/
theorem C6_counterexample :
    broadcast_livereload failsOne [1, 2] (OutMsg.reload "") = ([], true) := rfl

/-- Witness for C6 (amended): a failing send to client 2 stops the loop
after the successful send to client 1; client 3 receives nothing. -/
theorem C6_broadcast_behaviour_witness :
    broadcast_livereload failsTwo [1, 2, 3] (OutMsg.alert "x") =
      ([(1, OutMsg.alert "x")], true) :=
  C6_broadcast_behaviour.2.2 failsTwo [1] [3] 2 (OutMsg.alert "x")
    (by decide) (by decide)

/-- Claim C7 (amended): closing an open connection (in the set, with live
handlers) removes it from the client set and releases its handlers; but
close is not idempotent: closing a connection whose handlers are already
released raises AttributeError, and closing one absent from the set raises
KeyError. -/
theorem C7_close_behaviour (hub : Hub) (ws : Nat) :
    (hub.handlers ws = true → ws ∈ hub.websockets →
       ∃ hub2, close_livereload hub ws = Except.ok hub2 ∧
         hub2.websockets = hub.websockets.erase ws ∧ hub2.handlers ws = false) ∧
    (hub.handlers ws = false →
       close_livereload hub ws = Except.error "AttributeError") ∧
    (hub.handlers ws = true → ws ∉ hub.websockets →
       close_livereload hub ws = Except.error "KeyError") := by
  refine ⟨?_, ?_, ?_⟩
  · intro hh hm
    refine ⟨⟨hub.websockets.erase ws, fun w => if w = ws then false else hub.handlers w⟩,
      ?_, rfl, ?_⟩
    · simp [close_livereload, hh, hm]
    · simp
  · intro hh
    simp [close_livereload, hh]
  · intro hh hm
    simp [close_livereload, hh, hm]

/-- Counterexample to C7 as stated: the first close succeeds, the second
close of the same connection raises instead of being a no-op. -/
theorem C7_counterexample :
    exceptOk (close_livereload hubC7 1) = true ∧
    exceptOk (closeTwice hubC7 1) = false :=
  ⟨rfl, rfl⟩

/-- Witness for C7 (amended): closing a never-connected websocket (handlers
absent) raises AttributeError. -/
theorem C7_close_behaviour_witness :
    close_livereload hubW7 5 = Except.error "AttributeError" :=
  (C7_close_behaviour hubW7 5).2.1 rfl

/-- Claim C8 (amended): registering a path that is not an existing
directory (file) fails: schedule returns false, no watch rule is added, and
the watch never fires on any later event; the historical caller logs a
warning naming the path, but the current caller discards the Boolean result
and logs nothing. -/
theorem C8_nonexistent_registration :
    (∀ (fs : FS) (st : List DirRule) (d : List Char) (rec : Bool) (act : Option DirPred),
       fs.isdir (fs.abspath d) = false →
       scheduleDir fs st d rec act = (false, st) ∧
       watch_dir fs st d rec act = (st, []) ∧
       watch_dir_legacy fs st d rec act = (st, [d]) ∧
       (∀ (rs : Bool) (evt : Event) (root path : List Char) (o : Outcome),
          (∀ r ∈ st, r.dirname ≠ fs.abspath d) →
          dirsDispatch rs st evt = some (root, path, o) → root ≠ fs.abspath d)) ∧
    (∀ (fs : FS) (tbl : Table FileEntry) (f : List Char) (act : Option FilePred),
       fs.isfile (fs.abspath f) = false →
       scheduleFile fs tbl f act = (false, tbl) ∧
       watch_file fs tbl f act = (tbl, []) ∧
       watch_file_legacy fs tbl f act = (tbl, [f]) ∧
       (∀ (mc rs : Bool) (fs2 : FS) (evt : Event),
          evt.is_directory = false →
          resolvedPath evt = fs.abspath f →
          tblGet tbl (dirnameOf (fs.abspath f)) (basenameOf (fs.abspath f)) = none →
          filesDispatch mc rs fs2 tbl evt = (tbl, none))) := by
  constructor
  · intro fs st d rec act hnd
    have hsch : scheduleDir fs st d rec act = (false, st) := by
      simp [scheduleDir, hnd]
    refine ⟨hsch, ?_, ?_, ?_⟩
    · simp [watch_dir, hsch]
    · simp [watch_dir_legacy, hsch]
    · intro rs evt root path o hne hd
      unfold dirsDispatch at hd
      rcases Option.map_eq_some'.mp hd with ⟨r, hf, hr⟩
      dsimp only at hr
      cases hr
      exact hne r (List.mem_of_find?_eq_some hf)
  · intro fs tbl f act hnf
    have hsch : scheduleFile fs tbl f act = (false, tbl) := by
      simp [scheduleFile, hnf]
    refine ⟨hsch, ?_, ?_, ?_⟩
    · simp [watch_file, hsch]
    · simp [watch_file_legacy, hsch]
    · intro mc rs fs2 evt hdir hres hget
      unfold filesDispatch
      rw [hdir, hres]
      simp [hget]

/-- Counterexample to C8 as stated: on a filesystem with no directories the
current `Reloader.watch_dir` fails (schedule returns false, no rule is
added) but logs no warning at all. -/
theorem C8_counterexample :
    scheduleDir fsNone [] dirC8 false none = (false, []) ∧
    (watch_dir fsNone [] dirC8 false none).2 = [] :=
  ⟨rfl, rfl⟩

/-- Witness for C8 (amended): the historical caller does log a warning
naming the directory. -/
theorem C8_nonexistent_registration_witness :
    watch_dir_legacy fsNone [] dirC8 false none = ([], [dirC8]) :=
  (C8_nonexistent_registration.1 fsNone [] dirC8 false none rfl).2.2.1

theorem isPrefixOf_append_self (pat y : List Char) : pat.isPrefixOf (pat ++ y) = true :=
  List.isPrefixOf_iff_prefix.mpr (List.prefix_append pat y)

theorem containsSub_of_split (pat : List Char) :
    ∀ (x y : List Char), containsSub pat (x ++ pat ++ y) = true := by
  intro x
  induction x with
  | nil =>
    intro y
    rw [List.nil_append]
    cases hpy : pat ++ y with
    | nil =>
      rcases List.append_eq_nil.mp hpy with ⟨h1, _⟩
      subst h1
      rfl
    | cons c cs =>
      simp only [containsSub]
      rw [← hpy, isPrefixOf_append_self]
      simp
  | cons c x' ih =>
    intro y
    have hassoc : (c :: x') ++ pat ++ y = c :: (x' ++ pat ++ y) := by simp
    rw [hassoc]
    simp only [containsSub]
    rw [ih y]
    simp

theorem partitionAt_spec (pat : List Char) (hpat : pat ≠ []) :
    ∀ (s : List Char),
      (containsSub pat s = false ∧ partitionAt pat s = (s, [], [])) ∨
      (∃ b a, partitionAt pat s = (b, pat, a) ∧ s = b ++ pat ++ a ∧
        containsSub pat b = false) := by
  intro s
  induction s with
  | nil =>
    left
    refine ⟨?_, rfl⟩
    cases pat with
    | nil => exact absurd rfl hpat
    | cons c cs => rfl
  | cons c rest ih =>
    by_cases hp : pat.isPrefixOf (c :: rest) = true
    · right
      refine ⟨[], (c :: rest).drop pat.length, ?_, ?_, ?_⟩
      · simp [partitionAt, hp]
      · obtain ⟨t, ht⟩ := List.isPrefixOf_iff_prefix.mp hp
        rw [List.nil_append, ← ht, List.drop_left]
      · cases pat with
        | nil => exact absurd rfl hpat
        | cons d ds => rfl
    · have hp' : pat.isPrefixOf (c :: rest) = false := Bool.eq_false_iff.mpr hp
      rcases ih with ⟨hc, he⟩ | ⟨b, a, he, hs, hb⟩
      · left
        constructor
        · simp [containsSub, hp', hc]
        · simp [partitionAt, hp', he]
      · right
        refine ⟨c :: b, a, ?_, ?_, ?_⟩
        · simp [partitionAt, hp', he]
        · rw [hs]
          rfl
        · have hnp : pat.isPrefixOf (c :: b) = false := by
            rw [Bool.eq_false_iff]
            intro hcon
            have h1 : pat <+: c :: b := List.isPrefixOf_iff_prefix.mp hcon
            have h2 : (c :: b) <+: (c :: rest) :=
              ⟨pat ++ a, by simp [hs, List.append_assoc]⟩
            exact hp (List.isPrefixOf_iff_prefix.mpr (h1.trans h2))
          simp [containsSub, hnp, hb]

/-- Claim C9: for a response whose Content-Type starts with `text/html`,
the reload script is inserted immediately before the first `</head>` — or,
when the body contains no `</head>`, immediately before the first
`</body>` — and the Content-Length header is recomputed to the length of
the modified body; a response without an HTML Content-Type passes through
with headers and body unmodified. -/
theorem C9_html_response_augmented
    (script : List Char) (status : String) (headers : List (String × String))
    (body : List Char) :
    (∀ ct, mdGet "Content-Type" headers = some ct →
       (!(ct == "") && strStartsWith ct "text/html") = true →
       generate_response script status headers body =
         (status,
          mdSet "Content-Length" (toString (insert_reload_script body script).length) headers,
          insert_reload_script body script) ∧
       mdGet "Content-Length" (generate_response script status headers body).2.1 =
         some (toString (insert_reload_script body script).length)) ∧
    (mdGet "Content-Type" headers = none →
       generate_response script status headers body = (status, headers, body)) ∧
    (∀ ct, mdGet "Content-Type" headers = some ct →
       (!(ct == "") && strStartsWith ct "text/html") = false →
       generate_response script status headers body = (status, headers, body)) ∧
    (containsSub headTag body = true →
       ∃ b1 b2, body = b1 ++ headTag ++ b2 ∧ containsSub headTag b1 = false ∧
         insert_reload_script body script = b1 ++ script ++ headTag ++ b2) ∧
    (containsSub headTag body = false → containsSub bodyTag body = true →
       ∃ b1 b2, body = b1 ++ bodyTag ++ b2 ∧ containsSub bodyTag b1 = false ∧
         insert_reload_script body script = b1 ++ script ++ bodyTag ++ b2) ∧
    (containsSub headTag body = false → containsSub bodyTag body = false →
       insert_reload_script body script = body) := by
  have hmdset : mdGet "Content-Length"
      (mdSet "Content-Length" (toString (insert_reload_script body script).length) headers) =
      some (toString (insert_reload_script body script).length) := by
    unfold mdGet mdSet
    rw [List.reverse_append]
    simp
  refine ⟨?_, ?_, ?_, ?_, ?_, ?_⟩
  · intro ct hget hhtml
    have hgen : generate_response script status headers body =
        (status,
         mdSet "Content-Length" (toString (insert_reload_script body script).length) headers,
         insert_reload_script body script) := by
      unfold generate_response
      rw [hget]
      dsimp only
      rw [hhtml]
      simp
    exact ⟨hgen, by rw [hgen]; exact hmdset⟩
  · intro hget
    unfold generate_response
    rw [hget]
  · intro ct hget hhtml
    unfold generate_response
    rw [hget]
    dsimp only
    rw [hhtml]
    simp
  · intro hhead
    rcases partitionAt_spec headTag (by decide) body with ⟨hc, _⟩ | ⟨b, a, he, hs, hb⟩
    · rw [hc] at hhead
      exact absurd hhead (by simp)
    · refine ⟨b, a, hs, hb, ?_⟩
      unfold insert_reload_script
      rw [he]
      have hne : headTag ≠ [] := by decide
      simp [hne]
  · intro hhead hbody
    rcases partitionAt_spec headTag (by decide) body with ⟨_, he1⟩ | ⟨b, a, _, hs, _⟩
    · rcases partitionAt_spec bodyTag (by decide) body with ⟨hc, _⟩ | ⟨b, a, he2, hs, hb⟩
      · rw [hc] at hbody
        exact absurd hbody (by simp)
      · refine ⟨b, a, hs, hb, ?_⟩
        unfold insert_reload_script
        rw [he1, he2]
        have hne : bodyTag ≠ [] := by decide
        simp [hne]
    · exact absurd hhead (by rw [hs, containsSub_of_split]; simp)
  · intro hhead hbody
    rcases partitionAt_spec headTag (by decide) body with ⟨_, he1⟩ | ⟨b, a, _, hs, _⟩
    · rcases partitionAt_spec bodyTag (by decide) body with ⟨_, he2⟩ | ⟨b, a, _, hs, _⟩
      · unfold insert_reload_script
        rw [he1, he2]
        simp
      · exact absurd hbody (by rw [hs, containsSub_of_split]; simp)
    · exact absurd hhead (by rw [hs, containsSub_of_split]; simp)

/-- Witness for C9: a small HTML response gets the script spliced in and
its Content-Length header recomputed. -/
theorem C9_html_response_augmented_witness :
    generate_response scriptW "200 OK" headersW bodyW =
      ("200 OK",
       mdSet "Content-Length" (toString (insert_reload_script bodyW scriptW).length) headersW,
       insert_reload_script bodyW scriptW) ∧
    mdGet "Content-Length" (generate_response scriptW "200 OK" headersW bodyW).2.1 =
      some (toString (insert_reload_script bodyW scriptW).length) :=
  (C9_html_response_augmented scriptW "200 OK" headersW bodyW).1
    "text/html" rfl (by decide)

/-- Claim C10: the current file observer matches a `moved` event by its
destination path — moving another file onto a watched path triggers that
watch, while an event whose destination path is unwatched matches nothing
even when its source path is the watched file; the historical observer
always matches by the source path, whatever the destination. -/
theorem C10_moved_matches_dest :
    (∀ (evt : Event) (d : List Char),
       evt.dest_path = some d → d ≠ [] → resolvedPath evt = d) ∧
    (∀ (mc rs : Bool) (fs : FS) (tbl : Table FileEntry) (evt : Event)
       (d : List Char) (e : FileEntry),
       evt.is_directory = false → evt.dest_path = some d → d ≠ [] →
       tblGet tbl (dirnameOf d) (basenameOf d) = some e →
       (!mc || observedMtime fs d e.mtime > e.mtime) = true →
       (filesDispatch mc rs fs tbl evt).2 =
         some (fileExecuteCallback rs e.action evt d)) ∧
    (∀ (mc rs : Bool) (fs : FS) (tbl : Table FileEntry) (evt : Event) (d : List Char),
       evt.is_directory = false → evt.dest_path = some d → d ≠ [] →
       tblGet tbl (dirnameOf d) (basenameOf d) = none →
       filesDispatch mc rs fs tbl evt = (tbl, none)) ∧
    (∀ (rs : Bool) (fs : FS) (tbl : Table FileEntryOld) (evt : Event)
       (e : FileEntryOld),
       evt.is_directory = false →
       tblGet tbl (dirnameOf evt.src_path) (basenameOf evt.src_path) = some e →
       observedMtime fs evt.src_path e.mtime > e.mtime →
       (filesDispatchOld rs fs tbl evt).2.isSome = true) ∧
    (∀ (rs : Bool) (fs : FS) (tbl : Table FileEntryOld) (evt : Event),
       evt.is_directory = false →
       tblGet tbl (dirnameOf evt.src_path) (basenameOf evt.src_path) = none →
       filesDispatchOld rs fs tbl evt = (tbl, none)) := by
  have hres : ∀ (evt : Event) (d : List Char),
      evt.dest_path = some d → d ≠ [] → resolvedPath evt = d := by
    intro evt d hd hne
    unfold resolvedPath
    rw [hd]
    simp [hne]
  refine ⟨hres, ?_, ?_, ?_, ?_⟩
  · intro mc rs fs tbl evt d e hdir hd hne hget hgate
    unfold filesDispatch
    rw [hdir, hres evt d hd hne]
    simp only [Bool.false_eq_true, if_false, hget, hgate, if_true]
  · intro mc rs fs tbl evt d hdir hd hne hget
    unfold filesDispatch
    rw [hdir, hres evt d hd hne]
    simp only [Bool.false_eq_true, if_false, hget]
  · intro rs fs tbl evt e hdir hget hgate
    unfold filesDispatchOld
    rw [hdir]
    simp only [Bool.false_eq_true, if_false, hget]
    rw [if_pos hgate]
    rfl
  · intro rs fs tbl evt hdir hget
    unfold filesDispatchOld
    rw [hdir]
    simp only [Bool.false_eq_true, if_false, hget]

/-- Witness for C10: a `moved` event with an unwatched source and the
watched file as destination fires the watch in the current observer. -/
theorem C10_moved_matches_dest_witness :
    (filesDispatch false true fsNone tblW evtM10).2 = some ⟨true, false⟩ := by
  have h := C10_moved_matches_dest.2.1 false true fsNone tblW evtM10 fW eW
    rfl rfl (by decide) rfl rfl
  simpa [fileExecuteCallback, eW, default_file_action_fires, isModEvent, evtM10] using h

end Nagare
